import Mathlib

set_option maxRecDepth 16000

/-!
Verification of the sighax-simulator core (`crypto_engine.py`) against its
specification.

Shallow embedding conventions:
* Python `bytes` values are `List Nat` (each element a byte value `< 256`).
* Python `str` values are `String` (or `List Char` for the character-level
  `hex_dump` formatting, which the round-trip claim reasons about).
* `hashlib.sha256(...).digest()` is an external library call; it is modelled
  by an abstract parameter `H : List Nat → List Nat` together with the
  hypotheses the code relies on (a 32-byte digest of byte values), supplied
  where a claim needs them.
* Step dictionaries are modelled by the `Step` structure.  The free-text
  presentation fields (`title`, `desc`, `hex_block`, `highlight_bytes`,
  `block_offsets`, `pointer_at`, `pointer_lands`) carry no logic and are not
  modelled; the fields the specification's claims are about (`id`, `ok`,
  `tag`, `fatal`, `vals`, `vuln`) are kept, with a missing `fatal`/`vuln`
  key modelled as `false` (Python `dict.get` default semantics for the
  consumers).
* Python slicing `l[a:b]` is `pySlice`, `l[i]` at an in-bounds index is
  `List.getD l i 0` (every index the traced code reads is in bounds for the
  blocks the claims involve; the one guarded read in the source keeps its
  guard).
-/

/-- Constant `HASH_LEN = 32` (SHA-256). -/
def HASH_LEN : Nat := 32

/-- Uppercase hexadecimal digit characters, as produced by Python's
`'%02X'`/`f'{b:02X}'` formatting and by `bytes.hex().upper()`. -/
def hexDigitChars : List Char :=
  ['0', '1', '2', '3', '4', '5', '6', '7', '8', '9', 'A', 'B', 'C', 'D', 'E', 'F']

/-- The uppercase hex digit for `d` (used with `d < 16`). -/
def hexDigit (d : Nat) : Char := hexDigitChars.getD d '0'

/-- Two-digit uppercase hex of a byte value `b < 256` (Python `%02X` formatting). -/
def byteHex (b : Nat) : List Char := [hexDigit (b / 16), hexDigit (b % 16)]

/-- Packed `String` form of the two-digit uppercase hex of a byte. -/
def byteHexStr (b : Nat) : String := String.mk (byteHex b)

/-- Character list of `bytes.hex().upper()` for a byte string. -/
def hexUpperChars (l : List Nat) : List Char := l.flatMap byteHex

/-- Uppercase hex string of a byte string, as `bytes.hex().upper()`. -/
def hexUpperStr (l : List Nat) : String := String.mk (hexUpperChars l)

/-- Python slice `l[a:b]` (for `0 ≤ a ≤ b`; both clamp at the length). -/
def pySlice (l : List Nat) (a b : Nat) : List Nat := (l.drop a).take (b - a)

/-- The fixed 13-byte inner identifier block (SHA-256 OID) emitted by
`SignatureBlock._build`. -/
def inner_block : List Nat :=
  [0x06, 0x09, 0x60, 0x86, 0x48, 0x01, 0x65, 0x03, 0x04, 0x02, 0x01, 0x05, 0x00]

/-- Model of `SignatureBlock` from `crypto_engine.py`: the raw 128-byte-capped buffer
plus the offset map recorded by `_build`. -/
structure SignatureBlock where
  firmware_data : List Nat
  padding_type : Nat
  inner_block_len_byte : Nat
  raw : List Nat
  off_byte0 : Nat
  off_byte1 : Nat
  off_padding_start : Nat
  off_padding_end : Nat
  off_separator : Nat
  off_30_1 : Nat
  off_31 : Nat
  off_30_2 : Nat
  off_0d : Nat
  off_inner_start : Nat
  off_inner_end : Nat
  off_04 : Nat
  off_20 : Nat
  off_correct_hash : Nat
  off_calc_hash : Nat
  correct_hash : List Nat
  calculated_hash : List Nat
deriving DecidableEq, Repr

/-- Translation of `SignatureBlock.__init__` plus `_build` from the source.
`H` models `hashlib.sha256(·).digest()`. -/
def SignatureBlock.build (H : List Nat → List Nat) (firmware_data : List Nat)
    (padding_type : Nat) (inner_block_len_override : Option Nat) : SignatureBlock :=
  let inner_block_len_byte := inner_block_len_override.getD 13
  let header : List Nat := [0x00, padding_type]
  let padding : List Nat :=
    if padding_type = 0x01 then
      let fixed_tail := 1 + 1 + 1 + 1 + 1 + 13 + 1 + 1 + HASH_LEN
      let pad_len := 128 - header.length - 1 - fixed_tail
      List.replicate (max pad_len 8) 0xFF
    else []
  let separator : List Nat := [0x00]
  let correct_hash := H firmware_data
  let after_padding :=
    [0x30, 0x31, 0x30, inner_block_len_byte] ++ inner_block ++ [0x04, 0x20] ++ correct_hash
  let raw := (header ++ padding ++ separator ++ after_padding).take 128
  { firmware_data := firmware_data
    padding_type := padding_type
    inner_block_len_byte := inner_block_len_byte
    raw := raw
    off_byte0 := 0
    off_byte1 := 1
    off_padding_start := 2
    off_padding_end := if padding.isEmpty then 1 else (header ++ padding).length - 1
    off_separator := (header ++ padding).length
    off_30_1 := (header ++ padding).length + 1
    off_31 := (header ++ padding).length + 2
    off_30_2 := (header ++ padding).length + 3
    off_0d := (header ++ padding).length + 4
    off_inner_start := (header ++ padding).length + 4 + 1
    off_inner_end := (header ++ padding).length + 4 + 1 + 13
    off_04 := (header ++ padding).length + 4 + 1 + 13
    off_20 := (header ++ padding).length + 4 + 1 + 13 + 1
    off_correct_hash := (header ++ padding).length + 4 + 1 + 13 + 2
    off_calc_hash := (header ++ padding).length + 4 + 1 + 13 + 2 + HASH_LEN
    correct_hash := correct_hash
    calculated_hash := correct_hash }

/-- Fallible constructor: Python's `bytes([...])` raises `ValueError` when a
value does not fit in a byte (`0..255`); `__init__` itself performs no
validation of the padding type.  The only failing inputs are values that are
not bytes. -/
def SignatureBlock.buildE (H : List Nat → List Nat) (firmware_data : List Nat)
    (padding_type : Nat) (inner_block_len_override : Option Nat) :
    Except String SignatureBlock :=
  if padding_type ≤ 255 ∧ inner_block_len_override.getD 13 ≤ 255 then
    Except.ok (SignatureBlock.build H firmware_data padding_type inner_block_len_override)
  else
    Except.error "ValueError: bytes must be in range(0, 256)"

/-- Whether an `Except` result is a success. -/
def isOkE (e : Except String SignatureBlock) : Bool :=
  match e with
  | Except.ok _ => true
  | Except.error _ => false

/-- One parser-trace step record (the logic-bearing fields of the step
dictionaries produced by `SighaxEngine`). -/
structure Step where
  id : Nat
  ok : Bool
  tag : String
  fatal : Bool
  vuln : Bool
  vals : List (String × String)
deriving DecidableEq, Repr

/-- The offset map of a block as a single value (field name order follows
`_build`). -/
def offsetsOf (b : SignatureBlock) : List Nat :=
  [b.off_byte0, b.off_byte1, b.off_padding_start, b.off_padding_end, b.off_separator,
   b.off_30_1, b.off_31, b.off_30_2, b.off_0d, b.off_inner_start, b.off_inner_end,
   b.off_04, b.off_20, b.off_correct_hash, b.off_calc_hash]

/-- Step 0 of the legitimate trace (bootROM start, informational). -/
def legit_step0 (H : List Nat → List Nat) (firmware : List Nat) : Step :=
  { id := 0, ok := true, tag := "INFO", fatal := false, vuln := false,
    vals := [("FIRM magic", "\"FIRM\" (0x46 49 52 4D)"),
             ("Firma", "256 bytes (RSA-2048)"),
             ("Clave pública", "Hardcoded en bootROM (no modificable)"),
             ("SHA-256(FIRM)", hexUpperStr (H firmware))] }

/-- Step 1 of the legitimate trace (signature decryption, informational). -/
def legit_step1 : Step :=
  { id := 1, ok := true, tag := "INFO", fatal := false, vuln := false,
    vals := [("Operación", "M = S^e mod N"),
             ("e", "65537 (0x10001)"),
             ("Resultado", "Bloque de 256 bytes → se parsea byte a byte")] }

/-- Step 2 of the legitimate trace: the byte-0 (block-start) check. -/
def legit_step2 (b0 : Nat) : Step :=
  { id := 2, ok := b0 == 0, tag := if b0 == 0 then "PASS" else "FAIL",
    fatal := !(b0 == 0), vuln := false,
    vals := [("Esperado", "0x00"),
             ("Recibido", "0x" ++ byteHexStr b0),
             ("Resultado", if b0 == 0 then "✓ Correcto" else "✗ FIRM rechazado")] }

/-- Step 3 of the legitimate trace: the padding-type byte (always PASS). -/
def legit_step3 (b1 : Nat) : Step :=
  { id := 3, ok := true, tag := "PASS", fatal := false, vuln := false,
    vals := [("Recibido", "0x" ++ byteHexStr b1 ++ " → CON padding (seguro)"),
             ("⚠️ Nota", "El bootROM también acepta 0x02 — Vulnerabilidad 1")] }

/-- Step 4 of the legitimate trace: the 0xFF padding-run check. -/
def legit_step4 (pad_data : List Nat) (pad_ok : Bool) : Step :=
  { id := 4, ok := pad_ok, tag := if pad_ok then "PASS" else "FAIL",
    fatal := !pad_ok, vuln := false,
    vals := [("Bytes de padding", toString pad_data.length),
             ("Todos == 0xFF", if pad_ok then "✓ Sí" else "✗ No")] }

/-- Step 5 of the legitimate trace: the 0x00 separator check. -/
def legit_step5 (sep : Nat) : Step :=
  { id := 5, ok := sep == 0, tag := if sep == 0 then "PASS" else "FAIL",
    fatal := !(sep == 0), vuln := false,
    vals := [("Esperado", "0x00"), ("Recibido", "0x" ++ byteHexStr sep)] }

/-- Step 6 of the legitimate trace: the 0x30/0x31/0x30 markers (the middle
byte is read but ignored; the tag is `PASS` unconditionally and the step is
never fatal). -/
def legit_step6 (o1 o2 o3 b30a b31 b30b : Nat) : Step :=
  { id := 6, ok := (b30a == 0x30) && (b30b == 0x30), tag := "PASS",
    fatal := false, vuln := false,
    vals := [("[" ++ toString o1 ++ "]=0x" ++ byteHexStr b30a, "✓ Verificado"),
             ("[" ++ toString o2 ++ "]=0x" ++ byteHexStr b31, "⚠️ IGNORADO por bootROM"),
             ("[" ++ toString o3 ++ "]=0x" ++ byteHexStr b30b, "✓ Verificado")] }

/-- Step 7 of the legitimate trace: the skip-length byte (informational). -/
def legit_step7 (od_val off_inner_start : Nat) : Step :=
  { id := 7, ok := true, tag := "INFO", fatal := false, vuln := false,
    vals := [("Valor", "0x" ++ byteHexStr od_val ++ " = " ++ toString od_val ++ " bytes (normal)"),
             ("Inner block", "OID SHA-256 — IGNORADO completamente"),
             ("Puntero tras skip", "→ offset " ++ toString (off_inner_start + od_val)),
             ("⚠️ En sighax", "Este byte se cambia para mover el puntero al correct_hash")] }

/-- Step 8 of the legitimate trace: the 0x04/0x20 markers (ignored). -/
def legit_step8 (o04 o20 b04 b20 off_correct_hash : Nat) : Step :=
  { id := 8, ok := true, tag := "INFO", fatal := false, vuln := false,
    vals := [("[" ++ toString o04 ++ "]=0x" ++ byteHexStr b04, "IGNORADO"),
             ("[" ++ toString o20 ++ "]=0x" ++ byteHexStr b20, "IGNORADO"),
             ("Siguiente", "→ correct_hash en offset " ++ toString off_correct_hash)] }

/-- Step 9 of the legitimate trace: the hash comparison. -/
def legit_step9 (correct_hash calculated_hash : List Nat) : Step :=
  { id := 9, ok := correct_hash == calculated_hash,
    tag := if correct_hash == calculated_hash then "VERIFIED ✓" else "FAIL",
    fatal := !(correct_hash == calculated_hash), vuln := false,
    vals := [("correct_hash", hexUpperStr correct_hash),
             ("calculated_hash", hexUpperStr calculated_hash),
             ("Resultado", if correct_hash == calculated_hash
                           then "✓ IDÉNTICOS — FIRM auténtico" else "✗ Rechazado")] }

/-- The tail of the legitimate trace from the separator check on (steps with
ids 5–9); the separator check is the last early-exit point before the final
hash comparison. -/
def legit_rest (H : List Nat → List Nat) (blk : SignatureBlock) (firmware : List Nat) :
    List Step :=
  let sep := blk.raw.getD blk.off_separator 0
  let s5 := legit_step5 sep
  if sep == 0 then
    let b30a := blk.raw.getD blk.off_30_1 0
    let b31 := blk.raw.getD blk.off_31 0
    let b30b := blk.raw.getD blk.off_30_2 0
    let od_val := blk.raw.getD blk.off_0d 0
    let b04 := if blk.off_04 < blk.raw.length then blk.raw.getD blk.off_04 0 else 0
    let b20 := if blk.off_20 < blk.raw.length then blk.raw.getD blk.off_20 0 else 0
    let correct_hash := pySlice blk.raw blk.off_correct_hash (blk.off_correct_hash + HASH_LEN)
    let calculated_hash := H firmware
    [s5,
     legit_step6 blk.off_30_1 blk.off_31 blk.off_30_2 b30a b31 b30b,
     legit_step7 od_val blk.off_inner_start,
     legit_step8 blk.off_04 blk.off_20 b04 b20 blk.off_correct_hash,
     legit_step9 correct_hash calculated_hash]
  else [s5]

/-- Translation of `SighaxEngine.bootrom_verify_correct`, factored over the block it
consumes (the source builds the block and inlines this logic; factoring the
block out lets corrupted blocks be traced, which the corruption claims are
about). -/
def bootrom_verify_correct_on (H : List Nat → List Nat) (blk : SignatureBlock)
    (firmware : List Nat) : List Step :=
  let b0 := blk.raw.getD blk.off_byte0 0
  let pre := [legit_step0 H firmware, legit_step1, legit_step2 b0]
  if b0 == 0 then
    let b1 := blk.raw.getD blk.off_byte1 0
    let pre3 := pre ++ [legit_step3 b1]
    if (b1 == 1) && decide (blk.off_padding_start < blk.off_separator) then
      let pad_data := pySlice blk.raw blk.off_padding_start blk.off_separator
      let pad_ok := pad_data.all (fun b => b == 0xFF)
      let pre4 := pre3 ++ [legit_step4 pad_data pad_ok]
      if pad_ok then pre4 ++ legit_rest H blk firmware else pre4
    else
      pre3 ++ legit_rest H blk firmware
  else pre

/-- Wrapper `bootrom_verify_correct(firmware)`: builds a PADDED block
from the firmware and traces it. -/
def bootrom_verify_correct (H : List Nat → List Nat) (firmware : List Nat) : List Step :=
  bootrom_verify_correct_on H (SignatureBlock.build H firmware 0x01 none) firmware

/-- The `info` dictionary returned by `SighaxEngine.forge_sighax`. -/
structure ForgeInfo where
  original_0d : Nat
  forged_0d : Nat
  off_0d : Nat
  off_correct : Nat
  off_calc : Nat
  hash_len : Nat
  evil_hash : List Nat
  skip_lands_at : Nat
deriving DecidableEq, Repr

/-- Translation of `SighaxEngine.forge_sighax`: two-pass forging — probe block with the
normal skip to learn the offsets, then the forged block with the
manipulated skip byte. -/
def forge_sighax (H : List Nat → List Nat) (evil_firmware : List Nat) :
    SignatureBlock × ForgeInfo :=
  let blk_temp := SignatureBlock.build H evil_firmware 0x02 (some 13)
  let needed_skip := blk_temp.off_correct_hash - blk_temp.off_inner_start
  let blk_forged := SignatureBlock.build H evil_firmware 0x02 (some needed_skip)
  (blk_forged,
   { original_0d := 13
     forged_0d := needed_skip
     off_0d := blk_forged.off_0d
     off_correct := blk_forged.off_correct_hash
     off_calc := blk_forged.off_calc_hash
     hash_len := HASH_LEN
     evil_hash := H evil_firmware
     skip_lands_at := blk_forged.off_inner_start + needed_skip })

/-- Step 0 of the adversarial trace (malicious FIRM load, informational). -/
def vuln_step0 (evil_hash : List Nat) : Step :=
  { id := 0, ok := true, tag := "INFO", fatal := false, vuln := false,
    vals := [("FIRM magic", "\"FIRM\" — sin modificar"),
             ("Payload", "Código ARM9 del atacante (Boot9Strap, etc.)"),
             ("SHA-256(evil)", hexUpperStr evil_hash)] }

/-- Step 1 of the adversarial trace: decryption yields the manipulated
block (Vulnerability 1 flagged). -/
def vuln_step1 : Step :=
  { id := 1, ok := true, tag := "EXPLOIT", fatal := false, vuln := true,
    vals := [("byte[1]", "0x02 — SIN padding (Vulnerabilidad 1)"),
             ("Efecto", "Brute-force de firma mucho más viable")] }

/-- Step 2 of the adversarial trace: byte 0 / byte 1, padding skipped. -/
def vuln_step2 : Step :=
  { id := 2, ok := true, tag := "VULN", fatal := false, vuln := true,
    vals := [("byte[0]=0x00", "✓ OK"),
             ("byte[1]=0x02", "⚠️ Sin padding — bootROM acepta igualmente"),
             ("Padding:", "SALTADO — ningún byte verificado")] }

/-- Step 3 of the adversarial trace: separator and ASN.1 markers (the source
builds this `vals` dict with a duplicated `'0x30'` key; a Python dict keeps
one entry for it, which is what is modelled). -/
def vuln_step3 (od_byte off_0d : Nat) : Step :=
  { id := 3, ok := true, tag := "INFO", fatal := false, vuln := false,
    vals := [("Separador 0x00", "✓"),
             ("0x30", "✓"),
             ("0x31", "IGNORADO"),
             ("Siguiente:", "byte 0x" ++ byteHexStr od_byte ++ " en offset "
                            ++ toString off_0d ++ " — ¡CLAVE!")] }

/-- Step 4 of the adversarial trace: the manipulated skip-length byte
(Vulnerability 2). -/
def vuln_step4 (od_val off_inner_start lands_at : Nat) : Step :=
  { id := 4, ok := true, tag := "VULN", fatal := false, vuln := true,
    vals := [("Valor legítimo", "0x0D = 13 bytes"),
             ("Valor forjado", "0x" ++ byteHexStr od_val ++ " = " ++ toString od_val
                               ++ " bytes  ← MANIPULADO"),
             ("Salta desde", "offset " ++ toString off_inner_start),
             ("Aterriza en", "offset " ++ toString lands_at ++ " = inicio de correct_hash"),
             ("⚠️ ENGAÑO", "Parser cree estar en correct_hash\npero está en calculated_hash")] }

/-- Step 5 of the adversarial trace: the cursor has landed on what it
believes is `correct_hash`. -/
def vuln_step5 (raw : List Nat) (evil_hash : List Nat) (lands_at outside : Nat) : Step :=
  { id := 5, ok := true, tag := "EXPLOIT", fatal := false, vuln := true,
    vals := [("\"correct_hash\" leído",
              if lands_at + HASH_LEN ≤ raw.length
              then hexUpperStr (pySlice raw lands_at (lands_at + HASH_LEN))
              else hexUpperStr evil_hash),
             ("Siguiente offset", toString outside ++ " → FUERA del bloque de firma"),
             ("Zona de escritura", "Memoria adyacente al bloque de firma")] }

/-- Step 6 of the adversarial trace: the calculated hash is written outside
the block. -/
def vuln_step6 (evil_hash : List Nat) (outside : Nat) : Step :=
  { id := 6, ok := true, tag := "EXPLOIT", fatal := false, vuln := true,
    vals := [("SHA-256(FIRM evil)", hexUpperStr evil_hash),
             ("Escrito en offset", toString outside ++ " (fuera del bloque)"),
             ("Zona afectada", "Memoria contigua al bloque de firma")] }

/-- Step 7 of the adversarial trace: the comparison always succeeds. -/
def vuln_step7 (evil_hash : List Nat) : Step :=
  { id := 7, ok := true, tag := "PWNED", fatal := false, vuln := true,
    vals := [("\"correct_hash\"", hexUpperStr evil_hash),
             ("\"calculated_hash\"", hexUpperStr evil_hash),
             ("Coinciden", "✓ SIEMPRE — para cualquier FIRM"),
             ("Acceso obtenido", "ARM9 ring-1 · NAND R/W · OTP dump · AES keys"),
             ("RESULTADO", "💀 FIRM MALICIOSO ACEPTADO — Sistema comprometido")] }

/-- Translation of `SighaxEngine.bootrom_verify_vulnerable`: the adversarial trace.  It
appends all eight steps unconditionally — there is no check that can fail.
(`evil_firmware` is a parameter of the source method but is not read by its
body; every hash it reports comes from `forge_info`.) -/
def bootrom_verify_vulnerable (blk : SignatureBlock) (evil_firmware : List Nat)
    (forge_info : ForgeInfo) : List Step :=
  let evil_hash := forge_info.evil_hash
  let lands_at := forge_info.skip_lands_at
  let outside := lands_at + HASH_LEN
  [vuln_step0 evil_hash,
   vuln_step1,
   vuln_step2,
   vuln_step3 (blk.raw.getD blk.off_0d 0) blk.off_0d,
   vuln_step4 (blk.raw.getD blk.off_0d 0) blk.off_inner_start lands_at,
   vuln_step5 blk.raw evil_hash lands_at outside,
   vuln_step6 evil_hash outside,
   vuln_step7 evil_hash]

/-- Composition `forgeAndTraceExploit` of the specification's external interface:
`forge_sighax` followed by `bootrom_verify_vulnerable` on its results. -/
def forgeAndTraceExploit (H : List Nat → List Nat) (evil_firmware : List Nat) :
    SignatureBlock × List Step :=
  let p := forge_sighax H evil_firmware
  (p.1, bootrom_verify_vulnerable p.1 evil_firmware p.2)

/-- A concrete instance of the abstract digest function, used to instantiate
witnesses and counterexamples: it satisfies the SHA-256 interface facts the
code relies on (32-byte output of byte values). -/
def constDigest : List Nat → List Nat := fun _ => List.replicate 32 0

/-- Digits of `n` in uppercase hex, accumulator style (`fuel ≥` the number
of digits; the fuel starts at `n`, which suffices since base-16 uses at most
`n` digits). -/
def natHexAux : Nat → Nat → List Char → List Char
  | 0, _, acc => acc
  | fuel + 1, n, acc => if n = 0 then acc else natHexAux fuel (n / 16) (hexDigit (n % 16) :: acc)

/-- Uppercase hex digits of `n` (Python `X` formatting), no padding. -/
def natHexChars (n : Nat) : List Char := if n = 0 then ['0'] else natHexAux n n []

/-- Offset column (Python `04X` formatting): uppercase hex, zero-padded on the left to width 4. -/
def offsetHex (i : Nat) : List Char :=
  List.replicate (4 - (natHexChars i).length) '0' ++ natHexChars i

/-- Python `chr(b) if 32 <= b < 127 else '.'` from `hex_dump`. -/
def asciiChar (b : Nat) : Char := if 32 ≤ b ∧ b < 127 then Char.ofNat b else '.'

/-- Python `sep.join(parts)` at the character level. -/
def joinSep (sep : Char) : List (List Char) → List Char
  | [] => []
  | [l] => l
  | l :: l2 :: ls => l ++ sep :: joinSep sep (l2 :: ls)

/-- Python `str.ljust`-style padding used by `f'{h:<{cols*3}}'`. -/
def ljust (w : Nat) (l : List Char) : List Char := l ++ List.replicate (w - l.length) ' '

/-- One output row of `hex_dump`: `f'{i:04X}  {h:<{cols*3}}  {a}'`. -/
def hexLine (i cols : Nat) (chunk : List Nat) : List Char :=
  offsetHex i ++ [' ', ' '] ++ ljust (cols * 3) (joinSep ' ' (chunk.map byteHex))
    ++ [' ', ' '] ++ chunk.map asciiChar

/-- The rows of `hex_dump`: one per `cols`-byte chunk, with the running byte
offset (`for i in range(0, len(data), cols)`), fuel-structured on the data
length. -/
def hexDumpLines (cols : Nat) : Nat → Nat → List Nat → List (List Char)
  | 0, _, _ => []
  | _, _, [] => []
  | fuel + 1, i, b :: rest =>
    hexLine i cols ((b :: rest).take cols) :: hexDumpLines cols fuel (i + cols) ((b :: rest).drop cols)

/-- Translation of `SighaxEngine.hex_dump(data, cols)` (the returned string, as its
character list).  `cols = 0` is outside the source's domain (Python's
`range` would reject a zero step). -/
def hex_dump (data : List Nat) (cols : Nat) : List Char :=
  joinSep '\n' (hexDumpLines cols data.length 0 data)

/-- Split into maximal runs of non-separator characters (accumulator holds
the current token reversed).  Consecutive separators produce no empty
tokens. -/
def splitAux (sep : Char) : List Char → List Char → List (List Char)
  | [], cur => if cur.isEmpty then [] else [cur.reverse]
  | c :: cs, cur =>
    if c = sep then
      if cur.isEmpty then splitAux sep cs [] else cur.reverse :: splitAux sep cs []
    else splitAux sep cs (c :: cur)

/-- The nonempty tokens of `l` separated by `sep`. -/
def splitTokens (sep : Char) (l : List Char) : List (List Char) := splitAux sep l []

/-- Drop everything up to and including the first run of two consecutive
spaces (the boundary between a row's offset column and its hex column). -/
def dropHeader : List Char → List Char
  | [] => []
  | [_] => []
  | a :: b :: rest =>
    if a = ' ' then (if b = ' ' then rest else dropHeader (b :: rest))
    else dropHeader (b :: rest)

/-- Numeric value of an uppercase hex digit character. -/
def hexVal (c : Char) : Nat := if c.toNat ≤ 57 then c.toNat - 48 else c.toNat - 55

/-- Parse one hex-pair token back to its byte value. -/
def hexByteVal (tok : List Char) : Nat := tok.foldl (fun a c => 16 * a + hexVal c) 0

/-- Re-parse the hex-byte column of one `hexDump` row: skip the offset
column (everything through the first double space), keep only the
`cols * 3`-character hex field (which excludes the ASCII gutter), and read
its whitespace-separated hex pairs. -/
def parseHexLine (cols : Nat) (line : List Char) : List Nat :=
  (splitTokens ' ' ((dropHeader line).take (cols * 3))).map hexByteVal

/-- Re-parse every row of a `hexDump` output, ignoring the offset columns
and ASCII gutters. -/
def parseHexDump (cols : Nat) (s : List Char) : List Nat :=
  (splitTokens '\n' s).flatMap (parseHexLine cols)

/-- The byte content of a PADDED block before the skip-length byte. -/
def padPrefix : List Nat :=
  [0x00, 0x01] ++ List.replicate 73 0xFF ++ [0x00, 0x30, 0x31, 0x30]

lemma getD_append_left (A B : List Nat) (n d : Nat) (h : n < A.length) :
    (A ++ B).getD n d = A.getD n d := by
  induction A generalizing n with
  | nil => simp at h
  | cons a A ih =>
    cases n with
    | zero => rfl
    | succ n => simpa using ih n (by simpa using h)

lemma drop_append_of_le (A B : List Nat) (k : Nat) (h : k ≤ A.length) :
    (A ++ B).drop k = A.drop k ++ B := by
  induction A generalizing k with
  | nil => simp_all
  | cons a A ih =>
    cases k with
    | zero => rfl
    | succ k => simpa using ih k (by simpa using h)

lemma take_append_of_le (A B : List Nat) (m : Nat) (h : m ≤ A.length) :
    (A ++ B).take m = A.take m := by
  induction A generalizing m with
  | nil => simp_all
  | cons a A ih =>
    cases m with
    | zero => rfl
    | succ m => simpa using ih m (by simpa using h)

lemma set_append_len (A B : List Nat) (x y : Nat) :
    (A ++ x :: B).set A.length y = A ++ y :: B := by
  induction A with
  | nil => rfl
  | cons a A ih => simp [ih]

lemma build_raw_padded (H : List Nat → List Nat) (fw : List Nat) (ob : Option Nat) :
    (SignatureBlock.build H fw 1 ob).raw =
      (padPrefix ++ ob.getD 13 :: (inner_block ++ [0x04, 0x20] ++ H fw)).take 128 := by
  simp [SignatureBlock.build, padPrefix, HASH_LEN]

lemma build_raw_unpadded (H : List Nat → List Nat) (fw : List Nat) (pt : Nat)
    (ob : Option Nat) (hpt : pt ≠ 1) :
    (SignatureBlock.build H fw pt ob).raw =
      ([0x00, pt, 0x00, 0x30, 0x31, 0x30] ++ ob.getD 13 :: (inner_block ++ [0x04, 0x20] ++ H fw)).take 128 := by
  simp [SignatureBlock.build, hpt]

lemma build_raw_padded_full (H : List Nat → List Nat) (Hlen : ∀ d, (H d).length = 32)
    (fw : List Nat) (ob : Option Nat) :
    (SignatureBlock.build H fw 1 ob).raw =
      padPrefix ++ ob.getD 13 :: (inner_block ++ [0x04, 0x20] ++ H fw) := by
  rw [build_raw_padded]
  exact List.take_of_length_le (by simp [padPrefix, inner_block, Hlen fw])

lemma build_raw_unpadded_full (H : List Nat → List Nat) (Hlen : ∀ d, (H d).length = 32)
    (fw : List Nat) (pt : Nat) (ob : Option Nat) (hpt : pt ≠ 1) :
    (SignatureBlock.build H fw pt ob).raw =
      [0x00, pt, 0x00, 0x30, 0x31, 0x30] ++ ob.getD 13 :: (inner_block ++ [0x04, 0x20] ++ H fw) := by
  rw [build_raw_unpadded H fw pt ob hpt]
  exact List.take_of_length_le (by simp [inner_block, Hlen fw])

lemma build_raw_length (H : List Nat → List Nat) (Hlen : ∀ d, (H d).length = 32)
    (fw : List Nat) (pt : Nat) (ob : Option Nat) :
    (SignatureBlock.build H fw pt ob).raw.length = if pt = 1 then 127 else 54 := by
  by_cases hpt : pt = 1
  · subst hpt
    rw [build_raw_padded_full H Hlen fw ob]
    simp [padPrefix, inner_block, Hlen fw]
  · rw [build_raw_unpadded_full H Hlen fw pt ob hpt]
    simp [inner_block, Hlen fw, hpt]

lemma offsetsOf_build (H1 H2 : List Nat → List Nat) (fw1 fw2 : List Nat) (pt : Nat)
    (o1 o2 : Option Nat) :
    offsetsOf (SignatureBlock.build H1 fw1 pt o1) =
      offsetsOf (SignatureBlock.build H2 fw2 pt o2) := rfl

lemma getD_take_lt (l : List Nat) (n i d : Nat) (h : i < n) :
    (l.take n).getD i d = l.getD i d := by
  induction l generalizing n i with
  | nil => simp
  | cons a l ih =>
    cases n with
    | zero => omega
    | succ n =>
      cases i with
      | zero => rfl
      | succ i => simpa using ih n i (by omega)

lemma getD_set_zero (l : List Nat) (v d : Nat) (h : 0 < l.length) :
    (l.set 0 v).getD 0 d = v := by
  cases l with
  | nil => simp at h
  | cons a l => rfl

/-- C1: for every evil firmware byte string, `forgeAndTraceExploit`
(`forge_sighax` followed by `bootrom_verify_vulnerable`) returns a trace of
exactly 8 steps, none of which is fatal, whose last step carries the
compromised verdict (tag `"PWNED"` in the source — the encoding of the
specification's COMPROMISED/EXPLOITED verdict). -/
theorem c1_exploit_trace (H : List Nat → List Nat) (evil : List Nat) :
    (forgeAndTraceExploit H evil).2.length = 8 ∧
    (∀ s ∈ (forgeAndTraceExploit H evil).2, s.fatal = false) ∧
    (forgeAndTraceExploit H evil).2.getLast?.map Step.tag = some "PWNED" := by
  refine ⟨rfl, ?_, rfl⟩
  intro s hs
  simp only [forgeAndTraceExploit, bootrom_verify_vulnerable, List.mem_cons,
    List.not_mem_nil, or_false] at hs
  rcases hs with h | h | h | h | h | h | h | h <;> subst h <;> rfl

/-- C3: the `neededSkip` computed by forging equals
`off_correct_hash - off_inner_start` of any block built with the same
padding type (UNPADDED), whatever its firmware and override, and the
computed `neededSkip` does not depend on the firmware input. -/
theorem c3_needed_skip_structural (H H2 : List Nat → List Nat) (F G : List Nat)
    (o : Option Nat) :
    (forge_sighax H F).2.forged_0d =
      (SignatureBlock.build H2 G 0x02 o).off_correct_hash -
        (SignatureBlock.build H2 G 0x02 o).off_inner_start ∧
    (forge_sighax H F).2.forged_0d = (forge_sighax H2 G).2.forged_0d :=
  ⟨rfl, rfl⟩

/-- C9: every recorded field offset of a `SignatureBlock` is a function of
the padding type alone — firmware content and the inner-block-length
override never change the offset map — and in particular the probe block
and the final forged block of the two-pass forging share the same
offsets. -/
theorem c9_offsets_structural (H1 H2 : List Nat → List Nat) (fw1 fw2 : List Nat)
    (pt : Nat) (o1 o2 : Option Nat) :
    offsetsOf (SignatureBlock.build H1 fw1 pt o1) =
      offsetsOf (SignatureBlock.build H2 fw2 pt o2) ∧
    offsetsOf (forge_sighax H1 fw1).1 =
      offsetsOf (SignatureBlock.build H1 fw1 0x02 (some 13)) :=
  ⟨offsetsOf_build H1 H2 fw1 fw2 pt o1 o2, rfl⟩

/-- C4 counterexample: a PADDED block built from the empty firmware has a
`rawBytes` of 127 bytes, not the 128 the claim requires. -/
theorem c4_counterexample :
    (SignatureBlock.build constDigest [] 0x01 none).raw.length = 127 ∧
    (SignatureBlock.build constDigest [] 0x01 none).raw.length ≠ 128 := by
  refine ⟨rfl, by decide⟩

/-- C4 (amended): for every firmware, padding type and override, `rawBytes`
has length at most 128 — exactly 127 for PADDED (0x01) and 54 for any
other padding-type value (including UNPADDED 0x02); the builder truncates
to 128 but never pads up to it. -/
theorem c4_raw_length (H : List Nat → List Nat) (Hlen : ∀ d, (H d).length = 32)
    (fw : List Nat) (pt : Nat) (o : Option Nat) :
    (SignatureBlock.build H fw pt o).raw.length = (if pt = 1 then 127 else 54) ∧
    (SignatureBlock.build H fw pt o).raw.length ≤ 128 := by
  have h := build_raw_length H Hlen fw pt o
  refine ⟨h, ?_⟩
  rw [h]
  split <;> omega

/-- C4 witness: the amended statement evaluated at a concrete digest
function, firmware and padding type. -/
theorem c4_raw_length_witness :
    (SignatureBlock.build constDigest [] 0x01 none).raw.length = (if 0x01 = 1 then 127 else 54) ∧
    (SignatureBlock.build constDigest [] 0x01 none).raw.length ≤ 128 :=
  c4_raw_length constDigest (fun _ => by simp [constDigest]) [] 0x01 none

/-- C5 counterexample: for the empty evil firmware, `outside = landsAt + 32`
is 54, which является inside the nominal 128-byte extent — it does not lie
outside the nominal 128-byte signature block. -/
theorem c5_counterexample :
    (forge_sighax constDigest []).2.skip_lands_at + HASH_LEN = 54 ∧
    ¬ 128 ≤ (forge_sighax constDigest []).2.skip_lands_at + HASH_LEN := by
  refine ⟨rfl, by decide⟩

/-- C5 (amended): for every evil firmware, `landsAt` equals
`off_correct_hash` of the forged block, and `outside = landsAt + 32` equals
the length of the forged block's actual `rawBytes` (54) — the first offset
past the end of the actual (unpadded) block, which is still inside the
nominal 128-byte extent. -/
theorem c5_outside_is_end_of_block (H : List Nat → List Nat)
    (Hlen : ∀ d, (H d).length = 32) (F : List Nat) :
    (forge_sighax H F).2.skip_lands_at = (forge_sighax H F).1.off_correct_hash ∧
    (forge_sighax H F).2.skip_lands_at + HASH_LEN = (forge_sighax H F).1.raw.length ∧
    (forge_sighax H F).2.skip_lands_at + HASH_LEN < 128 := by
  refine ⟨rfl, ?_, by norm_num [forge_sighax, SignatureBlock.build, HASH_LEN]⟩
  have h := build_raw_length H Hlen F 0x02
    (some ((SignatureBlock.build H F 0x02 (some 13)).off_correct_hash -
           (SignatureBlock.build H F 0x02 (some 13)).off_inner_start))
  simp only [show (0x02 : Nat) ≠ 1 by decide, if_neg, reduceIte] at h
  exact h.symm

/-- C5 witness: the amended statement at the concrete digest function and
the empty firmware. -/
theorem c5_outside_witness :
    (forge_sighax constDigest []).2.skip_lands_at = (forge_sighax constDigest []).1.off_correct_hash ∧
    (forge_sighax constDigest []).2.skip_lands_at + HASH_LEN = (forge_sighax constDigest []).1.raw.length ∧
    (forge_sighax constDigest []).2.skip_lands_at + HASH_LEN < 128 :=
  c5_outside_is_end_of_block constDigest (fun _ => by simp [constDigest]) []

/-- C7 counterexample: the padding type 0x03, outside the enumeration
{0x01, 0x02}, is accepted without any invalid-argument failure: the block
is built, with the unpadded layout and 0x03 stored at byte 1. -/
theorem c7_counterexample :
    isOkE (SignatureBlock.buildE constDigest [] 0x03 none) = true ∧
    (SignatureBlock.build constDigest [] 0x03 none).raw.getD 1 0 = 0x03 ∧
    (SignatureBlock.build constDigest [] 0x03 none).off_separator = 2 := by
  refine ⟨rfl, rfl, rfl⟩

/-- C7 (amended): the builder does not fail fast on out-of-enumeration
padding types: any value other than 0x01 and 0x02 that still fits in a byte
is accepted silently and produces the unpadded layout, with the supplied
value stored at byte 1; an invalid-argument failure (`ValueError` from
`bytes()`) occurs only for values that do not fit in a byte. -/
theorem c7_no_fail_fast (H : List Nat → List Nat) (fw : List Nat) (pt : Nat)
    (o : Option Nat) (h1 : pt ≠ 0x01) (h2 : pt ≠ 0x02) (h3 : pt ≤ 255)
    (h4 : o.getD 13 ≤ 255) :
    SignatureBlock.buildE H fw pt o = Except.ok (SignatureBlock.build H fw pt o) ∧
    (SignatureBlock.build H fw pt o).raw.getD 1 0 = pt ∧
    (SignatureBlock.build H fw pt o).off_separator = 2 ∧
    isOkE (SignatureBlock.buildE H fw 999 o) = false := by
  refine ⟨?_, ?_, ?_, ?_⟩
  · simp [SignatureBlock.buildE, h3, h4]
  · rw [build_raw_unpadded H fw pt o h1, getD_take_lt _ _ _ _ (by omega)]
    exact getD_append_left [0x00, pt, 0x00, 0x30, 0x31, 0x30] _ 1 0 (by simp)
  · simp [SignatureBlock.build, h1]
  · simp [SignatureBlock.buildE, isOkE]

/-- C7 witness: the amended statement at padding type 0x03. -/
theorem c7_no_fail_fast_witness :
    SignatureBlock.buildE constDigest [] 0x03 none =
      Except.ok (SignatureBlock.build constDigest [] 0x03 none) ∧
    (SignatureBlock.build constDigest [] 0x03 none).raw.getD 1 0 = 0x03 ∧
    (SignatureBlock.build constDigest [] 0x03 none).off_separator = 2 ∧
    isOkE (SignatureBlock.buildE constDigest [] 999 none) = false :=
  c7_no_fail_fast constDigest [] 0x03 none (by decide) (by decide) (by decide) (by decide)

/-- C10 counterexample: building with the inner-block-length override 13
(an override equal to the default) changes no byte at all compared to
building with the default — so an override does not always change exactly
one byte. -/
theorem c10_counterexample :
    (SignatureBlock.build constDigest [] 0x02 (some 13)).raw =
      (SignatureBlock.build constDigest [] 0x02 none).raw := rfl

/-- C10 (amended): for every firmware, padding type and byte-valued
override `o`, the block built with the override differs from the
default-built block in at most the single byte at `off_0d` — its raw bytes
are the default raw bytes with position `off_0d` set to `o` (equal when
`o = 13`) — and the offset maps coincide. -/
theorem c10_override_frame (H : List Nat → List Nat)
    (Hlen : ∀ d, (H d).length = 32) (fw : List Nat) (pt : Nat) (o : Nat)
    (ho : o ≤ 255) :
    (SignatureBlock.build H fw pt (some o)).raw =
      ((SignatureBlock.build H fw pt none).raw).set
        (SignatureBlock.build H fw pt none).off_0d o ∧
    offsetsOf (SignatureBlock.build H fw pt (some o)) =
      offsetsOf (SignatureBlock.build H fw pt none) := by
  refine ⟨?_, offsetsOf_build H H fw fw pt (some o) none⟩
  by_cases hpt : pt = 1
  · subst hpt
    rw [build_raw_padded_full H Hlen fw (some o), build_raw_padded_full H Hlen fw none]
    have hoff : (SignatureBlock.build H fw 1 none).off_0d = 79 := rfl
    have hlen79 : padPrefix.length = 79 := rfl
    rw [hoff, ← hlen79, set_append_len]
    rfl
  · rw [build_raw_unpadded_full H Hlen fw pt (some o) hpt,
        build_raw_unpadded_full H Hlen fw pt none hpt]
    have hoff : (SignatureBlock.build H fw pt none).off_0d = 6 := by
      simp [SignatureBlock.build, hpt]
    rw [hoff,
        show (6 : Nat) = ([0x00, pt, 0x00, 0x30, 0x31, 0x30] : List Nat).length from rfl,
        set_append_len]
    rfl

/-- C10 witness: the amended statement at a concrete digest function,
firmware, padding type and override. -/
theorem c10_override_frame_witness :
    (SignatureBlock.build constDigest [] 0x02 (some 99)).raw =
      ((SignatureBlock.build constDigest [] 0x02 none).raw).set
        (SignatureBlock.build constDigest [] 0x02 none).off_0d 99 ∧
    offsetsOf (SignatureBlock.build constDigest [] 0x02 (some 99)) =
      offsetsOf (SignatureBlock.build constDigest [] 0x02 none) :=
  c10_override_frame constDigest (fun _ => by simp [constDigest]) [] 0x02 99 (by decide)

/-- C6 counterexample: corrupting byte 0 of the legitimately-built block to
0x07 makes the trace stop at the byte-0 check, but the returned sequence
has three steps (two informational steps precede the check), not exactly
one as the claim states. -/
theorem c6_counterexample :
    (bootrom_verify_correct_on constDigest
      { SignatureBlock.build constDigest [] 0x01 none with
        raw := (SignatureBlock.build constDigest [] 0x01 none).raw.set 0 0x07 } []).length = 3 ∧
    (bootrom_verify_correct_on constDigest
      { SignatureBlock.build constDigest [] 0x01 none with
        raw := (SignatureBlock.build constDigest [] 0x01 none).raw.set 0 0x07 } []).length ≠ 1 := by
  refine ⟨rfl, by decide⟩

/-- C6 (amended): for every firmware and every corrupting value `v ≠ 0x00`
for byte 0 of the legitimately-built block, the trace terminates at the
byte-0 check with tag FAIL and `fatal = true`, and the returned sequence
contains exactly three steps (the two informational preamble steps and the
failing check). -/
theorem c6_corrupt_byte0 (H : List Nat → List Nat) (fw : List Nat) (v : Nat)
    (hv : v ≠ 0) :
    (bootrom_verify_correct_on H
      { SignatureBlock.build H fw 0x01 none with
        raw := (SignatureBlock.build H fw 0x01 none).raw.set 0 v } fw).length = 3 ∧
    (bootrom_verify_correct_on H
      { SignatureBlock.build H fw 0x01 none with
        raw := (SignatureBlock.build H fw 0x01 none).raw.set 0 v } fw).getLast?.map Step.tag
      = some "FAIL" ∧
    (bootrom_verify_correct_on H
      { SignatureBlock.build H fw 0x01 none with
        raw := (SignatureBlock.build H fw 0x01 none).raw.set 0 v } fw).getLast?.map Step.fatal
      = some true := by
  have hlen : 0 < (SignatureBlock.build H fw 0x01 none).raw.length := by
    rw [build_raw_padded]
    simp [padPrefix]
  have hb0 : ((SignatureBlock.build H fw 0x01 none).raw.set 0 v).getD 0 0 = v :=
    getD_set_zero _ _ _ hlen
  have hbeq : (v == 0) = false := by simpa using hv
  have key : bootrom_verify_correct_on H
      { SignatureBlock.build H fw 0x01 none with
        raw := (SignatureBlock.build H fw 0x01 none).raw.set 0 v } fw =
      [legit_step0 H fw, legit_step1, legit_step2 v] := by
    simp only [bootrom_verify_correct_on]
    rw [show ({ SignatureBlock.build H fw 0x01 none with
        raw := (SignatureBlock.build H fw 0x01 none).raw.set 0 v } :
        SignatureBlock).raw.getD ({ SignatureBlock.build H fw 0x01 none with
        raw := (SignatureBlock.build H fw 0x01 none).raw.set 0 v } :
        SignatureBlock).off_byte0 0 = v from hb0, hbeq]
    simp
  rw [key]
  refine ⟨rfl, ?_, ?_⟩ <;> simp [List.getLast?, List.getLast, legit_step2, hbeq]

/-- C6 witness: the amended statement at a concrete digest function,
firmware and corrupting value. -/
theorem c6_corrupt_byte0_witness :
    (bootrom_verify_correct_on constDigest
      { SignatureBlock.build constDigest [] 0x01 none with
        raw := (SignatureBlock.build constDigest [] 0x01 none).raw.set 0 0x55 } []).length = 3 ∧
    (bootrom_verify_correct_on constDigest
      { SignatureBlock.build constDigest [] 0x01 none with
        raw := (SignatureBlock.build constDigest [] 0x01 none).raw.set 0 0x55 } []).getLast?.map Step.tag
      = some "FAIL" ∧
    (bootrom_verify_correct_on constDigest
      { SignatureBlock.build constDigest [] 0x01 none with
        raw := (SignatureBlock.build constDigest [] 0x01 none).raw.set 0 0x55 } []).getLast?.map Step.fatal
      = some true :=
  c6_corrupt_byte0 constDigest [] 0x55 (by decide)

/-- The full byte content of a legitimately-built (PADDED, default-skip)
block before the embedded digest. -/
def legitPrefix : List Nat := padPrefix ++ 13 :: (inner_block ++ [0x04, 0x20])

lemma legit_raw (H : List Nat → List Nat) (Hlen : ∀ d, (H d).length = 32)
    (fw : List Nat) :
    (SignatureBlock.build H fw 0x01 none).raw = legitPrefix ++ H fw := by
  rw [build_raw_padded_full H Hlen fw none]
  simp [legitPrefix]

/-- The legitimate trace on a well-formed digest function, as an explicit
ten-step list. -/
lemma legit_trace_eq (H : List Nat → List Nat) (Hlen : ∀ d, (H d).length = 32)
    (fw : List Nat) :
    bootrom_verify_correct H fw =
      [legit_step0 H fw, legit_step1, legit_step2 0, legit_step3 1,
       legit_step4 (List.replicate 73 0xFF) true, legit_step5 0,
       legit_step6 76 77 78 0x30 0x31 0x30, legit_step7 13 80,
       legit_step8 93 94 0x04 0x20 95, legit_step9 ((H fw).take 32) (H fw)] := by
  have hL : (legitPrefix ++ H fw).length = 127 := by
    simp [legitPrefix, padPrefix, inner_block, Hlen]
  simp only [bootrom_verify_correct, bootrom_verify_correct_on, legit_rest]
  rw [legit_raw H Hlen fw, hL]
  rfl

/-- A character is an uppercase hexadecimal digit. -/
def isUpperHexChar (c : Char) : Bool :=
  decide (('0' ≤ c ∧ c ≤ '9') ∨ ('A' ≤ c ∧ c ≤ 'F'))

/-- Every character of the string is an uppercase hexadecimal digit. -/
def isUpperHexString (s : String) : Bool := s.data.all isUpperHexChar

lemma length_hexUpperChars (l : List Nat) : (hexUpperChars l).length = 2 * l.length := by
  induction l with
  | nil => rfl
  | cons a l ih =>
    simp only [hexUpperChars, List.flatMap_cons, byteHex, List.length_append,
      List.length_cons, List.length_nil, List.length_cons] at *
    omega

lemma hexDigit_isUpperHex (d : Nat) (h : d < 16) : isUpperHexChar (hexDigit d) = true := by
  interval_cases d <;> decide

lemma isUpperHexString_hexUpperStr (l : List Nat) (h : ∀ b ∈ l, b < 256) :
    isUpperHexString (hexUpperStr l) = true := by
  simp only [isUpperHexString, hexUpperStr, hexUpperChars, List.all_eq_true]
  intro c hc
  have hc' : c ∈ l.flatMap byteHex := hc
  rcases List.mem_flatMap.mp hc' with ⟨b, hb, hcb⟩
  have hb256 := h b hb
  have hdiv : b / 16 < 16 := by omega
  have hmod : b % 16 < 16 := Nat.mod_lt _ (by omega)
  simp only [byteHex, List.mem_cons, List.not_mem_nil, or_false] at hcb
  rcases hcb with rfl | rfl
  · exact hexDigit_isUpperHex _ hdiv
  · exact hexDigit_isUpperHex _ hmod

lemma hexUpperStr_length (l : List Nat) (h : l.length = 32) :
    (hexUpperStr l).length = 64 := by
  show (hexUpperChars l).length = 64
  rw [length_hexUpperChars, h]

/-- C2: for every firmware byte string, `traceLegitimate`
(`bootrom_verify_correct`) returns exactly 10 steps, none fatal, whose final
step carries the VERIFIED verdict (tag `"VERIFIED ✓"` in the source) and
whose observed values hold two identical 64-character uppercase hex strings
under `"correct_hash"` and `"calculated_hash"`. -/
theorem c2_legitimate_trace (H : List Nat → List Nat)
    (Hlen : ∀ d, (H d).length = 32) (Hbytes : ∀ d, ∀ b ∈ H d, b < 256)
    (fw : List Nat) :
    (bootrom_verify_correct H fw).length = 10 ∧
    (∀ s ∈ bootrom_verify_correct H fw, s.fatal = false) ∧
    (∃ last : Step, (bootrom_verify_correct H fw).getLast? = some last ∧
      last.tag = "VERIFIED ✓" ∧
      ∃ hx : String,
        last.vals.lookup "correct_hash" = some hx ∧
        last.vals.lookup "calculated_hash" = some hx ∧
        hx.length = 64 ∧ isUpperHexString hx = true) := by
  have htake : (H fw).take 32 = H fw := List.take_of_length_le (le_of_eq (Hlen fw))
  have key := legit_trace_eq H Hlen fw
  rw [htake] at key
  rw [key]
  refine ⟨rfl, ?_, ?_⟩
  · intro s hs
    simp only [List.mem_cons, List.not_mem_nil, or_false] at hs
    rcases hs with h | h | h | h | h | h | h | h | h | h <;> subst h <;>
      simp [legit_step0, legit_step1, legit_step2, legit_step3, legit_step4,
        legit_step5, legit_step6, legit_step7, legit_step8, legit_step9]
  · refine ⟨legit_step9 (H fw) (H fw), rfl, ?_, hexUpperStr (H fw), ?_, ?_, ?_, ?_⟩
    · simp [legit_step9]
    · rfl
    · rfl
    · exact hexUpperStr_length (H fw) (Hlen fw)
    · exact isUpperHexString_hexUpperStr (H fw) (Hbytes fw)

/-- C2 witness: the statement instantiated at a concrete digest function
and the empty firmware. -/
theorem c2_legitimate_trace_witness :
    (bootrom_verify_correct constDigest []).length = 10 ∧
    (∀ s ∈ bootrom_verify_correct constDigest [], s.fatal = false) ∧
    (∃ last : Step, (bootrom_verify_correct constDigest []).getLast? = some last ∧
      last.tag = "VERIFIED ✓" ∧
      ∃ hx : String,
        last.vals.lookup "correct_hash" = some hx ∧
        last.vals.lookup "calculated_hash" = some hx ∧
        hx.length = 64 ∧ isUpperHexString hx = true) :=
  c2_legitimate_trace constDigest (fun _ => by simp [constDigest])
    (fun _ b hb => by simp [constDigest] at hb; omega) []

lemma hexDigit_ne_space (d : Nat) : hexDigit d ≠ ' ' := by
  unfold hexDigit
  rcases Nat.lt_or_ge d 16 with h | h
  · interval_cases d <;> decide
  · rw [List.getD_eq_default _ _ (by simpa [hexDigitChars] using h)]
    decide

lemma hexDigit_ne_newline (d : Nat) : hexDigit d ≠ '\n' := by
  unfold hexDigit
  rcases Nat.lt_or_ge d 16 with h | h
  · interval_cases d <;> decide
  · rw [List.getD_eq_default _ _ (by simpa [hexDigitChars] using h)]
    decide

lemma asciiChar_ne_newline (b : Nat) : asciiChar b ≠ '\n' := by
  unfold asciiChar
  split
  · next hb =>
    have hv : b.isValidChar := Or.inl (by omega)
    have htn : (Char.ofNat b).toNat = b := by
      rw [Char.ofNat, dif_pos hv]
      rfl
    intro heq
    have hb10 : b = Char.toNat '\n' := by rw [← htn, heq]
    have h10 : Char.toNat '\n' = 10 := rfl
    omega
  · decide

lemma natHexAux_mem (fuel : Nat) : ∀ (n : Nat) (acc : List Char) (c : Char),
    c ∈ natHexAux fuel n acc → c ∈ acc ∨ ∃ d, c = hexDigit d := by
  induction fuel with
  | zero => intro n acc c hc; exact Or.inl hc
  | succ fuel ih =>
    intro n acc c hc
    simp only [natHexAux] at hc
    split at hc
    · exact Or.inl hc
    · rcases ih (n / 16) (hexDigit (n % 16) :: acc) c hc with h | h
      · rw [List.mem_cons] at h
        rcases h with rfl | h
        · exact Or.inr ⟨n % 16, rfl⟩
        · exact Or.inl h
      · exact Or.inr h

lemma natHexChars_mem (n : Nat) (c : Char) (hc : c ∈ natHexChars n) :
    c = '0' ∨ ∃ d, c = hexDigit d := by
  unfold natHexChars at hc
  split at hc
  · simp at hc
    exact Or.inl hc
  · rcases natHexAux_mem n n [] c hc with h | h
    · simp at h
    · exact Or.inr h

lemma offsetHex_mem (i : Nat) (c : Char) (hc : c ∈ offsetHex i) :
    c = '0' ∨ ∃ d, c = hexDigit d := by
  unfold offsetHex at hc
  rcases List.mem_append.mp hc with h | h
  · exact Or.inl (List.eq_of_mem_replicate h)
  · exact natHexChars_mem i c h

lemma offsetHex_ne_space (i : Nat) (c : Char) (hc : c ∈ offsetHex i) : c ≠ ' ' := by
  rcases offsetHex_mem i c hc with rfl | ⟨d, rfl⟩
  · decide
  · exact hexDigit_ne_space d

lemma offsetHex_ne_newline (i : Nat) (c : Char) (hc : c ∈ offsetHex i) : c ≠ '\n' := by
  rcases offsetHex_mem i c hc with rfl | ⟨d, rfl⟩
  · decide
  · exact hexDigit_ne_newline d

lemma natHexAux_ne_nil (fuel : Nat) : ∀ (n : Nat) (acc : List Char),
    acc ≠ [] → natHexAux fuel n acc ≠ [] := by
  induction fuel with
  | zero => intro n acc h; exact h
  | succ fuel ih =>
    intro n acc h
    simp only [natHexAux]
    split
    · exact h
    · exact ih (n / 16) _ (by simp)

lemma natHexChars_ne_nil (n : Nat) : natHexChars n ≠ [] := by
  unfold natHexChars
  split
  · simp
  · next h =>
    cases n with
    | zero => simp at h
    | succ m =>
      show natHexAux (m + 1) (m + 1) [] ≠ []
      simp only [natHexAux]
      rw [if_neg h]
      exact natHexAux_ne_nil m _ _ (by simp)

lemma offsetHex_ne_nil (i : Nat) : offsetHex i ≠ [] := by
  unfold offsetHex
  intro h
  exact natHexChars_ne_nil i (List.append_eq_nil.mp h).2

lemma splitAux_replicate_nil (sep : Char) (m : Nat) :
    splitAux sep (List.replicate m sep) [] = [] := by
  induction m with
  | zero => rfl
  | succ m ih => simpa [List.replicate, splitAux] using ih

lemma splitAux_token (sep : Char) (t : List Char) (hsep : sep ∉ t) :
    ∀ (l cur : List Char), splitAux sep (t ++ l) cur = splitAux sep l (t.reverse ++ cur) := by
  induction t with
  | nil => intro l cur; rfl
  | cons c t ih =>
    intro l cur
    have hc : c ≠ sep := fun h => hsep (h ▸ List.mem_cons_self c t)
    have ht : sep ∉ t := fun h => hsep (List.mem_cons_of_mem c h)
    simp only [List.cons_append, splitAux, if_neg hc]
    exact (ih ht l (c :: cur)).trans (by simp)

lemma splitAux_sep_cons (sep : Char) (l cur : List Char) (h : cur ≠ []) :
    splitAux sep (sep :: l) cur = cur.reverse :: splitAux sep l [] := by
  have hne : ¬ (cur.isEmpty = true) := fun hemp => h (List.isEmpty_iff.mp hemp)
  simp only [splitAux]
  rw [if_pos trivial, if_neg hne]

lemma splitAux_replicate_cur (sep : Char) (m : Nat) (cur : List Char) (h : cur ≠ []) :
    splitAux sep (List.replicate m sep) cur = [cur.reverse] := by
  have hne : ¬ (cur.isEmpty = true) := fun hemp => h (List.isEmpty_iff.mp hemp)
  induction m with
  | zero =>
    simp only [List.replicate, splitAux]
    rw [if_neg hne]
  | succ m ih =>
    show splitAux sep (sep :: List.replicate m sep) cur = [cur.reverse]
    rw [splitAux_sep_cons sep _ cur h, splitAux_replicate_nil]

lemma split_join (sep : Char) (ls : List (List Char)) (m : Nat)
    (h1 : ∀ t ∈ ls, t ≠ []) (h2 : ∀ t ∈ ls, sep ∉ t) :
    splitTokens sep (joinSep sep ls ++ List.replicate m sep) = ls := by
  induction ls with
  | nil => simpa [joinSep, splitTokens] using splitAux_replicate_nil sep m
  | cons t ls ih =>
    cases ls with
    | nil =>
      have ht := h1 t (List.mem_cons_self t [])
      have hst := h2 t (List.mem_cons_self t [])
      show splitAux sep (t ++ List.replicate m sep) [] = [t]
      rw [splitAux_token sep t hst _ []]
      simpa using splitAux_replicate_cur sep m t.reverse (by simpa using ht)
    | cons t2 ls2 =>
      have ht := h1 t (List.mem_cons_self t _)
      have hst := h2 t (List.mem_cons_self t _)
      show splitAux sep ((t ++ sep :: joinSep sep (t2 :: ls2)) ++ List.replicate m sep) [] =
        t :: t2 :: ls2
      rw [List.append_assoc, splitAux_token sep t hst _ [], List.append_nil, List.cons_append,
        splitAux_sep_cons sep _ t.reverse (by simpa using ht), List.reverse_reverse]
      exact congrArg (t :: ·)
        (ih (fun x hx => h1 x (List.mem_cons_of_mem t hx))
            (fun x hx => h2 x (List.mem_cons_of_mem t hx)))

lemma dropHeader_spec (rest : List Char) : ∀ (xs : List Char), (∀ c ∈ xs, c ≠ ' ') →
    dropHeader (xs ++ ' ' :: ' ' :: rest) = rest := by
  intro xs
  induction xs with
  | nil => intro _; simp [dropHeader]
  | cons x xs ih =>
    intro h
    have hx : x ≠ ' ' := h x (List.mem_cons_self x xs)
    cases xs with
    | nil => simp [dropHeader, hx]
    | cons y ys =>
      have : dropHeader ((x :: y :: ys) ++ ' ' :: ' ' :: rest) =
          dropHeader ((y :: ys) ++ ' ' :: ' ' :: rest) := by
        simp [dropHeader, hx]
      rw [this]
      exact ih (fun c hc => h c (List.mem_cons_of_mem x hc))

lemma byteHex_ne_nil (b : Nat) : byteHex b ≠ [] := by simp [byteHex]

lemma byteHex_no_space (b : Nat) : ' ' ∉ byteHex b := by
  intro h
  simp only [byteHex, List.mem_cons, List.not_mem_nil, or_false] at h
  rcases h with h | h
  · exact hexDigit_ne_space _ h.symm
  · exact hexDigit_ne_space _ h.symm

lemma byteHex_no_newline (b : Nat) : '\n' ∉ byteHex b := by
  intro h
  simp only [byteHex, List.mem_cons, List.not_mem_nil, or_false] at h
  rcases h with h | h
  · exact hexDigit_ne_newline _ h.symm
  · exact hexDigit_ne_newline _ h.symm

lemma hexVal_hexDigit (d : Nat) (h : d < 16) : hexVal (hexDigit d) = d := by
  interval_cases d <;> decide

lemma hexByteVal_byteHex (b : Nat) (h : b < 256) : hexByteVal (byteHex b) = b := by
  show 16 * (16 * 0 + hexVal (hexDigit (b / 16))) + hexVal (hexDigit (b % 16)) = b
  rw [hexVal_hexDigit (b / 16) (by omega), hexVal_hexDigit (b % 16) (Nat.mod_lt _ (by omega))]
  omega

lemma joinSep_byteHex_length (chunk : List Nat) :
    (joinSep ' ' (chunk.map byteHex)).length ≤ 3 * chunk.length := by
  induction chunk with
  | nil => simp [joinSep]
  | cons b chunk ih =>
    cases chunk with
    | nil => simp [joinSep, byteHex]
    | cons b2 rest =>
      show (byteHex b ++ ' ' :: joinSep ' ' ((b2 :: rest).map byteHex)).length ≤
        3 * (b :: b2 :: rest).length
      rw [List.length_append, List.length_cons]
      have hlb : (byteHex b).length = 2 := rfl
      have h3 := ih
      rw [hlb]
      simp only [List.length_cons] at h3 ⊢
      omega

lemma ljust_length (w : Nat) (l : List Char) (h : l.length ≤ w) :
    (ljust w l).length = w := by
  simp [ljust]
  omega

lemma joinSep_mem (sep : Char) : ∀ (ls : List (List Char)) (c : Char),
    c ∈ joinSep sep ls → c = sep ∨ ∃ t ∈ ls, c ∈ t := by
  intro ls
  induction ls with
  | nil => intro c hc; simp [joinSep] at hc
  | cons t ls ih =>
    intro c hc
    cases ls with
    | nil =>
      exact Or.inr ⟨t, List.mem_cons_self t [], hc⟩
    | cons t2 ls2 =>
      rcases List.mem_append.mp hc with h | h
      · exact Or.inr ⟨t, List.mem_cons_self t _, h⟩
      · rw [List.mem_cons] at h
        rcases h with rfl | h
        · exact Or.inl rfl
        · rcases ih c h with h | ⟨u, hu, hcu⟩
          · exact Or.inl h
          · exact Or.inr ⟨u, List.mem_cons_of_mem t hu, hcu⟩

lemma parse_hexLine (i : Nat) (chunk : List Nat) (hne : chunk ≠ [])
    (hlen : chunk.length ≤ 16) (hb : ∀ b ∈ chunk, b < 256) :
    parseHexLine 16 (hexLine i 16 chunk) = chunk := by
  have hfield : (joinSep ' ' (chunk.map byteHex)).length ≤ 48 := by
    have := joinSep_byteHex_length chunk
    omega
  have hassoc : hexLine i 16 chunk =
      offsetHex i ++ ' ' :: ' ' ::
        (ljust (16 * 3) (joinSep ' ' (chunk.map byteHex)) ++ ' ' :: ' ' :: chunk.map asciiChar) := by
    simp [hexLine, List.append_assoc]
  have hdrop : dropHeader (hexLine i 16 chunk) =
      ljust (16 * 3) (joinSep ' ' (chunk.map byteHex)) ++ ' ' :: ' ' :: chunk.map asciiChar := by
    rw [hassoc]
    exact dropHeader_spec _ (offsetHex i) (offsetHex_ne_space i)
  have htake : (dropHeader (hexLine i 16 chunk)).take (16 * 3) =
      ljust (16 * 3) (joinSep ' ' (chunk.map byteHex)) := by
    rw [hdrop]
    exact List.take_left' (ljust_length _ _ hfield)
  unfold parseHexLine
  rw [htake]
  show (splitTokens ' ' (joinSep ' ' (chunk.map byteHex) ++
    List.replicate (16 * 3 - (joinSep ' ' (chunk.map byteHex)).length) ' ')).map hexByteVal = chunk
  rw [split_join ' ' (chunk.map byteHex) _
      (fun t ht => by rcases List.mem_map.mp ht with ⟨b, _, rfl⟩; exact byteHex_ne_nil b)
      (fun t ht => by rcases List.mem_map.mp ht with ⟨b, _, rfl⟩; exact byteHex_no_space b)]
  rw [List.map_map]
  have : ∀ b ∈ chunk, (hexByteVal ∘ byteHex) b = id b := by
    intro b hbm
    exact hexByteVal_byteHex b (hb b hbm)
  rw [List.map_congr_left this, List.map_id]

lemma hexLine_ne_nil (i cols : Nat) (chunk : List Nat) : hexLine i cols chunk ≠ [] := by
  unfold hexLine
  simp only [List.append_assoc]
  intro h
  exact offsetHex_ne_nil i (List.append_eq_nil.mp h).1

lemma hexLine_no_newline (i cols : Nat) (chunk : List Nat) : '\n' ∉ hexLine i cols chunk := by
  intro h
  unfold hexLine at h
  simp only [List.append_assoc] at h
  rcases List.mem_append.mp h with h | h
  · exact offsetHex_ne_newline i '\n' h rfl
  rcases List.mem_append.mp h with h | h
  · exact absurd h (by decide)
  rcases List.mem_append.mp h with h | h
  · have h' : '\n' ∈ joinSep ' ' (chunk.map byteHex) ++
        List.replicate (cols * 3 - (joinSep ' ' (chunk.map byteHex)).length) ' ' := h
    rcases List.mem_append.mp h' with h2 | h2
    · rcases joinSep_mem ' ' _ '\n' h2 with h3 | ⟨t, ht, hct⟩
      · exact absurd h3 (by decide)
      · rcases List.mem_map.mp ht with ⟨b, _, rfl⟩
        exact byteHex_no_newline b hct
    · exact absurd (List.eq_of_mem_replicate h2) (by decide)
  rcases List.mem_append.mp h with h | h
  · exact absurd h (by decide)
  · rcases List.mem_map.mp h with ⟨b, _, hb⟩
    exact asciiChar_ne_newline b hb

lemma dump_lines_parse : ∀ (fuel : Nat) (data : List Nat) (i : Nat),
    data.length ≤ fuel → (∀ b ∈ data, b < 256) →
    ((hexDumpLines 16 fuel i data).flatMap (parseHexLine 16) = data ∧
     ∀ l ∈ hexDumpLines 16 fuel i data, l ≠ [] ∧ '\n' ∉ l) := by
  intro fuel
  induction fuel with
  | zero =>
    intro data i hle _
    have : data = [] := List.length_eq_zero.mp (Nat.le_zero.mp hle)
    subst this
    simp [hexDumpLines]
  | succ fuel ih =>
    intro data i hle hb
    cases data with
    | nil => simp [hexDumpLines]
    | cons b rest =>
      have hchunk : (b :: rest).take 16 ≠ [] := by simp
      have hchunklen : ((b :: rest).take 16).length ≤ 16 := by
        simpa using List.length_take_le 16 (b :: rest)
      have hchunkb : ∀ x ∈ (b :: rest).take 16, x < 256 :=
        fun x hx => hb x (List.take_subset 16 (b :: rest) hx)
      have hrestlen : ((b :: rest).drop 16).length ≤ fuel := by
        rw [List.length_drop]
        simp only [List.length_cons] at hle ⊢
        omega
      have hrestb : ∀ x ∈ (b :: rest).drop 16, x < 256 :=
        fun x hx => hb x (List.drop_subset 16 (b :: rest) hx)
      obtain ⟨ih1, ih2⟩ := ih ((b :: rest).drop 16) (i + 16) hrestlen hrestb
      constructor
      · show parseHexLine 16 (hexLine i 16 ((b :: rest).take 16)) ++
          (hexDumpLines 16 fuel (i + 16) ((b :: rest).drop 16)).flatMap (parseHexLine 16) =
          b :: rest
        rw [parse_hexLine i _ hchunk hchunklen hchunkb, ih1, List.take_append_drop]
      · intro l hl
        rw [show hexDumpLines 16 (fuel + 1) i (b :: rest) =
          hexLine i 16 ((b :: rest).take 16) ::
            hexDumpLines 16 fuel (i + 16) ((b :: rest).drop 16) from rfl,
          List.mem_cons] at hl
        rcases hl with rfl | hl
        · exact ⟨hexLine_ne_nil _ _ _, hexLine_no_newline _ _ _⟩
        · exact ih2 l hl

/-- C8: re-parsing the hex-byte columns of `hex_dump(B, 16)` — ignoring the
offset column and the ASCII gutter — reconstructs the byte string `B`
exactly. -/
theorem c8_hexdump_roundtrip (B : List Nat) (hB : ∀ b ∈ B, b < 256) :
    parseHexDump 16 (hex_dump B 16) = B := by
  obtain ⟨hparse, hlines⟩ := dump_lines_parse B.length B 0 le_rfl hB
  have hsplit := split_join '\n' (hexDumpLines 16 B.length 0 B) 0
    (fun t ht => (hlines t ht).1) (fun t ht => (hlines t ht).2)
  simp only [List.replicate, List.append_nil] at hsplit
  unfold parseHexDump hex_dump
  rw [hsplit, hparse]

/-- C8 witness: the round-trip at a concrete byte string (containing a 0x00
byte, a printable byte, a 0xFF byte and a 0x20 space byte). -/
theorem c8_hexdump_roundtrip_witness :
    parseHexDump 16 (hex_dump [0x00, 0x41, 0xFF, 0x20] 16) = [0x00, 0x41, 0xFF, 0x20] :=
  c8_hexdump_roundtrip [0x00, 0x41, 0xFF, 0x20] (by decide)
